import Mathlib

/-!
Shallow embedding of `src/index.py` (UML text parser + effort estimator).

Python strings are modelled as `List Char`; Python floats as `ℚ`
(the numeric literals 1.2, 1.1, 1.15, 1.3, and the base-effort table are
exactly representable as rationals, so the arithmetic structure is preserved);
Python exceptions as `Except (List Char)`.  All recursions are structural so
every definition evaluates inside the kernel.
-/

/-- Characters of a string literal. -/
def strL (s : String) : List Char := s.data

/-- Python `str.strip()` on the right: drop trailing whitespace. -/
def dropTrailingWS (l : List Char) : List Char :=
  ((l.reverse).dropWhile Char.isWhitespace).reverse

/-- Python `str.strip()`: drop leading and trailing whitespace. -/
def pyStrip (l : List Char) : List Char :=
  dropTrailingWS (l.dropWhile Char.isWhitespace)

/-- Worker for `pyWords`: accumulates the current word (reversed) in `acc`. -/
def pyWordsAux : List Char → List Char → List (List Char)
  | acc, [] => if acc.isEmpty then [] else [acc.reverse]
  | acc, c :: cs =>
    if c.isWhitespace then
      if acc.isEmpty then pyWordsAux [] cs else acc.reverse :: pyWordsAux [] cs
    else pyWordsAux (c :: acc) cs

/-- Python `str.split()` with no argument: split on whitespace runs, dropping
empty fragments. -/
def pyWords (l : List Char) : List (List Char) := pyWordsAux [] l

/-- Worker for `pySplit`.  `skip` counts separator characters still to be
consumed after a match (so the recursion stays structural on the text). -/
def pySplitAux (sep : List Char) : Nat → List Char → List Char → List (List Char)
  | skip + 1, acc, _c :: cs => pySplitAux sep skip acc cs
  | _ + 1, acc, [] => [acc.reverse]
  | 0, acc, [] => [acc.reverse]
  | 0, acc, c :: cs =>
    if sep.isPrefixOf (c :: cs) then
      acc.reverse :: pySplitAux sep (sep.length - 1) [] cs
    else pySplitAux sep 0 (c :: acc) cs

/-- Python `text.split(sep)` for a non-empty separator: non-overlapping,
left-to-right. -/
def pySplit (l : List Char) (sep : List Char) : List (List Char) :=
  pySplitAux sep 0 [] l

/-- Python substring test `sep in l`. -/
def containsSeq (sep : List Char) : List Char → Bool
  | [] => sep.isPrefixOf []
  | c :: cs => sep.isPrefixOf (c :: cs) || containsSeq sep cs

/-- Python `l.index(c)`: position of the first occurrence, `ValueError` when
absent. -/
def pyIndexChar (c : Char) : List Char → Except (List Char) Nat
  | [] => .error (strL "ValueError: substring not found")
  | x :: xs =>
    if x = c then .ok 0
    else match pyIndexChar c xs with
      | .ok i => .ok (i + 1)
      | .error e => .error e

/-- Python `l[i]`: `IndexError` when out of range. -/
def pyListGet (l : List (List Char)) (i : Nat) : Except (List Char) (List Char) :=
  match l.get? i with
  | some a => .ok a
  | none => .error (strL "IndexError: list index out of range")

/-- Worker for `reSplitRel`: Python `re.split(r'--|->|\*|o', line)` with the
regex alternatives tried in order at each position. -/
def reSplitRelAux : List Char → List Char → List (List Char)
  | acc, [] => [acc.reverse]
  | acc, '-' :: '-' :: rest => acc.reverse :: reSplitRelAux [] rest
  | acc, '-' :: '>' :: rest => acc.reverse :: reSplitRelAux [] rest
  | acc, '*' :: rest => acc.reverse :: reSplitRelAux [] rest
  | acc, 'o' :: rest => acc.reverse :: reSplitRelAux [] rest
  | acc, c :: rest => reSplitRelAux (c :: acc) rest

/-- Python `re.split(r'--|->|\*|o', line)` used by the class-dialect
relationship branch. -/
def reSplitRel (l : List Char) : List (List Char) := reSplitRelAux [] l

/-- Python `round(x, 2)` (half-integer ties are rounded up here; Python's
float rounding differs only on exact ties, which no claim exercises). -/
def round2 (x : ℚ) : ℚ := ((round (x * 100) : ℤ) : ℚ) / 100

/-- dataclass `UMLRelationship`. -/
structure UMLRelationship where
  source : List Char
  target : List Char
  type : List Char
  multiplicity : Option (List Char) := none
deriving DecidableEq

/-- dataclass `UMLElement` (the list-valued fields default to Python `None`,
modelled as `Option`). -/
structure UMLElement where
  id : Nat
  type : List Char
  name : List Char
  attributes : Option (List (List Char)) := none
  methods : Option (List (List Char)) := none
  relationships : Option (List UMLRelationship) := none
  complexity : ℚ := 1
deriving DecidableEq

/-- `UMLParser._determine_relationship_type`. -/
def determine_relationship_type (line : List Char) : List Char :=
  if containsSeq (strL "-->") line then strL "association"
  else if containsSeq (strL "--*") line then strL "composition"
  else if containsSeq (strL "--o") line then strL "aggregation"
  else if containsSeq (strL "<|--") line then strL "inheritance"
  else strL "unknown"

/-- One iteration of the `_parse_class_diagram` line loop: state is the
emitted elements plus the currently open class. -/
def classStep (elements : List UMLElement) (cur : Option UMLElement)
    (rawLine : List Char) :
    Except (List Char) (List UMLElement × Option UMLElement) :=
  let line := pyStrip rawLine
  if (strL "class ").isPrefixOf line then
    -- flush the previous class, then open a new one
    let elements := match cur with
      | some c => elements ++ [c]
      | none => elements
    match pyListGet (pyWords line) 1 with
    | .error e => .error e
    | .ok class_name =>
      .ok (elements, some
        { id := elements.length, type := strL "class", name := class_name
          attributes := some [], methods := some [], relationships := some [] })
  else if (strL "+").isPrefixOf line || (strL "-").isPrefixOf line then
    match cur with
    | some c =>
      if containsSeq (strL ":") line then
        -- current_class always carries `some` lists, built at `class ` lines
        .ok (elements, some { c with attributes := some (c.attributes.getD [] ++ [line]) })
      else .ok (elements, some c)
    | none => .ok (elements, none)
  else if containsSeq (strL "()") line then
    match cur with
    | some c =>
      .ok (elements, some { c with methods := some (c.methods.getD [] ++ [line]) })
    | none => .ok (elements, none)
  else if containsSeq (strL "-->") line || containsSeq (strL "--*") line
      || containsSeq (strL "--o") line then
    match reSplitRel line with
    | p0 :: p1 :: rest =>
      -- len(parts) >= 2: source = parts[0], target = parts[-1]
      let relationship : UMLRelationship :=
        { source := pyStrip p0
          target := pyStrip ((p1 :: rest).getLast (by simp))
          type := determine_relationship_type line }
      match cur with
      | some c =>
        .ok (elements, some
          { c with relationships := some (c.relationships.getD [] ++ [relationship]) })
      | none => .ok (elements, none)
    | _ => .ok (elements, cur)
  else .ok (elements, cur)

/-- The line loop of `_parse_class_diagram`, flushing the last open class at
end of input. -/
def parse_class_loop : List (List Char) → List UMLElement → Option UMLElement →
    Except (List Char) (List UMLElement)
  | [], elements, cur =>
    .ok (match cur with
      | some c => elements ++ [c]
      | none => elements)
  | line :: rest, elements, cur =>
    match classStep elements cur line with
    | .error e => .error e
    | .ok st => parse_class_loop rest st.1 st.2

/-- `UMLParser._parse_class_diagram`. -/
def parse_class_diagram (content : List Char) : Except (List Char) (List UMLElement) :=
  parse_class_loop (pySplit content (strL "\n")) [] none

/-- Mutable state of `_parse_sequence_diagram`: emitted elements, the
(write-only) actor set, and the buffered messages `(source, target, text)`. -/
structure SeqState where
  elements : List UMLElement
  actors : List (List Char)
  messages : List (List Char × List Char × List Char)
deriving DecidableEq

/-- One iteration of the `_parse_sequence_diagram` line loop. -/
def seqStep (st : SeqState) (rawLine : List Char) : Except (List Char) SeqState :=
  let line := pyStrip rawLine
  if (strL "participant ").isPrefixOf line then
    match pyListGet (pyWords line) 1 with
    | .error e => .error e
    | .ok actor =>
      .ok { st with
            actors := if st.actors.contains actor then st.actors else st.actors ++ [actor]
            elements := st.elements ++
              [{ id := st.elements.length, type := strL "actor", name := actor }] }
  else if containsSeq (strL "->") line then
    match pySplit line (strL "->") with
    | [p0, p1] =>
      let source := pyStrip p0
      let target_message := pyStrip p1
      let tmParts := pySplit target_message (strL ":")
      match pyListGet tmParts 0 with
      | .error e => .error e
      | .ok t0 =>
        let target := pyStrip t0
        if containsSeq (strL ":") target_message then
          match pyListGet tmParts 1 with
          | .error e => .error e
          | .ok m1 =>
            .ok { st with messages := st.messages ++ [(source, target, pyStrip m1)] }
        else
          .ok { st with messages := st.messages ++ [(source, target, ([] : List Char))] }
    | _ => .ok st
  else .ok st

/-- The line loop of `_parse_sequence_diagram`. -/
def seqLoop : List (List Char) → SeqState → Except (List Char) SeqState
  | [], st => .ok st
  | line :: rest, st =>
    match seqStep st line with
    | .error e => .error e
    | .ok st' => seqLoop rest st'

/-- The trailing phase of `_parse_sequence_diagram`: buffered messages become
`message` elements (attributes = `[source, target]`). -/
def appendMessages : List UMLElement → List (List Char × List Char × List Char) →
    List UMLElement
  | elements, [] => elements
  | elements, (s, t, m) :: rest =>
    appendMessages
      (elements ++
        [{ id := elements.length, type := strL "message", name := m
           attributes := some [s, t] }]) rest

/-- `UMLParser._parse_sequence_diagram`. -/
def parse_sequence_diagram (content : List Char) : Except (List Char) (List UMLElement) :=
  match seqLoop (pySplit content (strL "\n")) ⟨[], [], []⟩ with
  | .error e => .error e
  | .ok st => .ok (appendMessages st.elements st.messages)

/-- One iteration of the `_parse_activity_diagram` line loop. -/
def activityStep (elements : List UMLElement) (rawLine : List Char) :
    Except (List Char) (List UMLElement) :=
  let line := pyStrip rawLine
  if (strL "start").isPrefixOf line || (strL "end").isPrefixOf line then
    .ok (elements ++ [{ id := elements.length, type := strL "node", name := line }])
  else if containsSeq (strL ":") line
      && !(containsSeq (strL "->") line || containsSeq (strL "*") line
           || containsSeq (strL "if") line || containsSeq (strL "fork") line) then
    match pyListGet (pySplit line (strL ":")) 1 with
    | .error e => .error e
    | .ok part =>
      .ok (elements ++
        [{ id := elements.length, type := strL "activity", name := pyStrip part }])
  else if containsSeq (strL "if") line then
    .ok (elements ++ [{ id := elements.length, type := strL "decision", name := line }])
  else if containsSeq (strL "fork") line || containsSeq (strL "join") line then
    .ok (elements ++ [{ id := elements.length, type := strL "parallel", name := line }])
  else .ok elements

/-- The line loop of `_parse_activity_diagram`. -/
def activityLoop : List (List Char) → List UMLElement →
    Except (List Char) (List UMLElement)
  | [], elements => .ok elements
  | line :: rest, elements =>
    match activityStep elements line with
    | .error e => .error e
    | .ok elements' => activityLoop rest elements'

/-- `UMLParser._parse_activity_diagram`. -/
def parse_activity_diagram (content : List Char) : Except (List Char) (List UMLElement) :=
  activityLoop (pySplit content (strL "\n")) []

/-- One iteration of the `_parse_component_diagram` line loop. -/
def componentStep (elements : List UMLElement) (rawLine : List Char) :
    Except (List Char) (List UMLElement) :=
  let line := pyStrip rawLine
  if (strL "[").isPrefixOf line && containsSeq (strL "]") line then
    match pyIndexChar ']' line with
    | .error e => .error e
    | .ok i =>
      .ok (elements ++
        [{ id := elements.length, type := strL "component"
           name := (line.drop 1).take (i - 1) }])
  else if containsSeq (strL "(") line && containsSeq (strL ")") line then
    match pyIndexChar '(' line with
    | .error e => .error e
    | .ok i =>
      match pyIndexChar ')' line with
      | .error e => .error e
      | .ok j =>
        .ok (elements ++
          [{ id := elements.length, type := strL "interface"
             name := (line.drop (i + 1)).take (j - (i + 1)) }])
  else if containsSeq (strL "-->") line then
    match pySplit line (strL "-->") with
    | [p0, p1] =>
      .ok (elements ++
        [{ id := elements.length, type := strL "dependency"
           name := pyStrip p0 ++ strL " -> " ++ pyStrip p1 }])
    | _ => .ok elements
  else .ok elements

/-- The line loop of `_parse_component_diagram`. -/
def componentLoop : List (List Char) → List UMLElement →
    Except (List Char) (List UMLElement)
  | [], elements => .ok elements
  | line :: rest, elements =>
    match componentStep elements line with
    | .error e => .error e
    | .ok elements' => componentLoop rest elements'

/-- `UMLParser._parse_component_diagram`. -/
def parse_component_diagram (content : List Char) : Except (List Char) (List UMLElement) :=
  componentLoop (pySplit content (strL "\n")) []

/-- The keys of `UMLParser.supported_types`. -/
def supported_types : List (List Char) :=
  [strL "class", strL "sequence", strL "activity", strL "component"]

/-- `UMLParser.parse_uml`: dispatch on the dialect tag, `ValueError` for an
unsupported tag. -/
def parse_uml (content : List Char) (diagram_type : List Char) :
    Except (List Char) (List UMLElement) :=
  if diagram_type = strL "class" then parse_class_diagram content
  else if diagram_type = strL "sequence" then parse_sequence_diagram content
  else if diagram_type = strL "activity" then parse_activity_diagram content
  else if diagram_type = strL "component" then parse_component_diagram content
  else .error (strL "Unsupported UML diagram type: " ++ diagram_type)

/-- `UMLEffortEstimator._calculate_base_effort`.  The `class` branch reads
`len(element.methods)` first and short-circuits, so a missing list raises
(`Except.error`) exactly where Python's `len(None)` would. -/
def calculate_base_effort (element : UMLElement) : Except (List Char) ℚ :=
  if element.type = strL "class" then
    match element.methods with
    | none => .error (strL "TypeError: object of type 'NoneType' has no len()")
    | some ms =>
      if ms.length > 10 then .ok 40
      else
        match element.relationships with
        | none => .error (strL "TypeError: object of type 'NoneType' has no len()")
        | some rs =>
          if rs.length > 5 then .ok 40
          else if ms.length > 5 || rs.length > 3 then .ok 24
          else .ok 16
  else .ok 8

/-- `sum(1 for r in relationships if r.type == 'inheritance')`. -/
def countInheritance (rs : List UMLRelationship) : Nat :=
  (rs.filter (fun r => r.type == strL "inheritance")).length

/-- `UMLEffortEstimator._calculate_complexity`.  The factors come from
`complexity_factors`: 1.2, 1.1, 1.15.  A factor guarded by Python truthiness
(`if element.relationships:`) is skipped for `None` or `[]`. -/
def calculate_complexity (element : UMLElement) : ℚ :=
  if element.type = strL "class" then
    let c0 : ℚ := 1
    let c1 : ℚ :=
      match element.relationships with
      | some rs =>
        if rs.isEmpty then c0
        else c0 * (1 + (countInheritance rs : ℚ) * (6 / 5 - 1))
      | none => c0
    let relationship_count : Nat :=
      match element.relationships with
      | some rs => if rs.isEmpty then 0 else rs.length
      | none => 0
    let c2 : ℚ := c1 * (1 + (relationship_count : ℚ) * (11 / 10 - 1))
    let method_count : Nat :=
      match element.methods with
      | some ms => if ms.isEmpty then 0 else ms.length
      | none => 0
    c2 * (1 + (method_count : ℚ) * (23 / 20 - 1))
  else 1

/-- The unrounded effort of one element, `base_effort * complexity`. -/
def elementEffort (element : UMLElement) : Except (List Char) ℚ :=
  match calculate_base_effort element with
  | .error e => .error e
  | .ok base => .ok (base * calculate_complexity element)

/-- Python dict insertion `d[k] = v`: overwrite in place, else append. -/
def dictInsert : List (List Char × ℚ) → List Char → ℚ → List (List Char × ℚ)
  | [], k, v => [(k, v)]
  | (k', v') :: rest, k, v =>
    if k' = k then (k, v) :: rest else (k', v') :: dictInsert rest k v

/-- Result of `UMLEffortEstimator.estimate_effort`. -/
structure Estimation where
  total_effort_hours : ℚ
  component_efforts : List (List Char × ℚ)
  high_complexity_elements : List (List Char)
deriving DecidableEq

/-- The element loop of `estimate_effort`, accumulating the unbuffered total
and the per-name breakdown. -/
def estimateLoop : List UMLElement → ℚ → List (List Char × ℚ) →
    Except (List Char) (ℚ × List (List Char × ℚ))
  | [], total, comp => .ok (total, comp)
  | element :: rest, total, comp =>
    match elementEffort element with
    | .error e => .error e
    | .ok eff => estimateLoop rest (total + eff) (dictInsert comp element.name (round2 eff))

/-- `UMLEffortEstimator.estimate_effort`. -/
def estimate_effort (elements : List UMLElement) : Except (List Char) Estimation :=
  match estimateLoop elements 0 [] with
  | .error e => .error e
  | .ok (total, comp) =>
    .ok { total_effort_hours := round2 (total * (13 / 10))
          component_efforts := comp
          high_complexity_elements :=
            (elements.filter (fun e => calculate_complexity e > 3 / 2)).map (·.name) }

/-- `summary` block of the report. -/
structure ReportSummary where
  total_effort_hours : ℚ
  calendar_days : ℤ
  number_of_components : Nat
deriving DecidableEq

/-- `complexity_analysis` block of the report. -/
structure ComplexityAnalysis where
  high_complexity_elements : List (List Char)
deriving DecidableEq

/-- The structured report built by `analyze_uml_document` on success. -/
structure Report where
  summary : ReportSummary
  component_breakdown : List (List Char × ℚ)
  complexity_analysis : ComplexityAnalysis
  recommendations : List (List Char)
deriving DecidableEq

/-- The report construction inside `analyze_uml_document`'s `try` block
(`np.ceil(hours / 6)` cast to `int`). -/
def buildReport (elements : List UMLElement) (estimation : Estimation) : Report :=
  { summary :=
      { total_effort_hours := estimation.total_effort_hours
        calendar_days := ⌈estimation.total_effort_hours / 6⌉
        number_of_components := elements.length }
    component_breakdown := estimation.component_efforts
    complexity_analysis := { high_complexity_elements := estimation.high_complexity_elements }
    recommendations :=
      if estimation.high_complexity_elements.length > 0 then
        [strL "Consider breaking down complex elements into smaller components"]
      else [] }

/-- Outcome of `analyze_uml_document`: the report, or the error record
`{error: ..., status: 'failed'}` built by the catch-all handler. -/
inductive AnalyzeOutcome where
  | success (report : Report)
  | failure (error : List Char) (status : List Char)
deriving DecidableEq

/-- `analyze_uml_document`: the whole pipeline under one `try/except`. -/
def analyze_uml_document (content : List Char) (diagram_type : List Char) :
    AnalyzeOutcome :=
  match parse_uml content diagram_type with
  | .error e =>
    .failure (strL "Error processing UML diagram: " ++ e) (strL "failed")
  | .ok elements =>
    match estimate_effort elements with
    | .error e =>
      .failure (strL "Error processing UML diagram: " ++ e) (strL "failed")
    | .ok estimation => .success (buildReport elements estimation)

instance {ε α : Type} [DecidableEq ε] [DecidableEq α] : DecidableEq (Except ε α) :=
  fun a b =>
    match a, b with
    | .ok x, .ok y =>
      if h : x = y then isTrue (by rw [h]) else isFalse (by simp [h])
    | .error x, .error y =>
      if h : x = y then isTrue (by rw [h]) else isFalse (by simp [h])
    | .ok _, .error _ => isFalse (by simp)
    | .error _, .ok _ => isFalse (by simp)

theorem dropWhile_head_not_ws :
    ∀ (l : List Char) (x : Char) (xs : List Char),
      l.dropWhile Char.isWhitespace = x :: xs → x.isWhitespace = false := by
  intro l
  induction l with
  | nil => intro x xs h; simp [List.dropWhile] at h
  | cons a as ih =>
    intro x xs h
    rw [List.dropWhile] at h
    cases hws : a.isWhitespace with
    | true => rw [hws] at h; exact ih x xs h
    | false => rw [hws] at h; cases h; exact hws

theorem dropTrailingWS_space_split :
    ∀ (x w t : List Char), dropTrailingWS x = w ++ ' ' :: t →
      ∃ c ∈ t, c.isWhitespace = false := by
  intro x w t h
  unfold dropTrailingWS at h
  have hD : x.reverse.dropWhile Char.isWhitespace = (w ++ ' ' :: t).reverse := by
    have h2 := congrArg List.reverse h
    simpa using h2
  rw [List.reverse_append, List.reverse_cons] at hD
  cases htr : t.reverse with
  | nil =>
    rw [htr] at hD
    simp only [List.nil_append, List.singleton_append] at hD
    have := dropWhile_head_not_ws _ _ _ hD
    simp at this
  | cons y ys =>
    rw [htr] at hD
    simp only [List.cons_append, List.append_assoc] at hD
    have hy := dropWhile_head_not_ws _ _ _ hD
    refine ⟨y, ?_, hy⟩
    have hmem : y ∈ t.reverse := by rw [htr]; exact List.mem_cons_self _ _
    simpa using hmem

theorem prefixOf_exists :
    ∀ (p l : List Char), p.isPrefixOf l = true → ∃ t, l = p ++ t := by
  intro p
  induction p with
  | nil => intro l _; exact ⟨l, rfl⟩
  | cons a as ih =>
    intro l h
    cases l with
    | nil => simp [List.isPrefixOf] at h
    | cons b bs =>
      simp only [List.isPrefixOf, Bool.and_eq_true, beq_iff_eq] at h
      obtain ⟨t, ht⟩ := ih bs h.2
      exact ⟨t, by simp [h.1, ht]⟩

theorem pyWordsAux_word :
    ∀ (w : List Char), (∀ c ∈ w, c.isWhitespace = false) →
      ∀ (acc rest : List Char), (acc ≠ [] ∨ w ≠ []) →
        pyWordsAux acc (w ++ ' ' :: rest) = (acc.reverse ++ w) :: pyWordsAux [] rest := by
  intro w
  induction w with
  | nil =>
    intro _ acc rest hne
    have hacc : acc ≠ [] := by
      rcases hne with h | h
      · exact h
      · simp at h
    have hie : acc.isEmpty = false := by
      cases acc
      · simp at hacc
      · rfl
    simp [pyWordsAux, hie]
  | cons a as ih =>
    intro hws acc rest _
    have ha : a.isWhitespace = false := hws a (by simp)
    show pyWordsAux acc (a :: (as ++ ' ' :: rest)) = _
    rw [pyWordsAux, ha]
    simp only [Bool.false_eq_true, if_false]
    rw [ih (fun c hc => hws c (by simp [hc])) (a :: acc) rest (Or.inl (by simp))]
    simp

theorem pyWordsAux_ne_nil :
    ∀ (l acc : List Char), (acc ≠ [] ∨ ∃ c ∈ l, c.isWhitespace = false) →
      pyWordsAux acc l ≠ [] := by
  intro l
  induction l with
  | nil =>
    intro acc h
    have hacc : acc ≠ [] := by
      rcases h with h | ⟨c, hc, _⟩
      · exact h
      · simp at hc
    have hie : acc.isEmpty = false := by
      cases acc
      · simp at hacc
      · rfl
    simp [pyWordsAux, hie]
  | cons a as ih =>
    intro acc h
    rw [pyWordsAux]
    cases ha : a.isWhitespace with
    | true =>
      simp only [if_true]
      cases hacp : acc.isEmpty with
      | true =>
        simp only [if_true]
        apply ih
        right
        rcases h with hne | ⟨c, hc, hcw⟩
        · cases acc
          · simp at hne
          · simp at hacp
        · rcases List.mem_cons.mp hc with rfl | hcs
          · rw [ha] at hcw; simp at hcw
          · exact ⟨c, hcs, hcw⟩
      | false => simp
    | false =>
      simp only [Bool.false_eq_true, if_false]
      exact ih (a :: acc) (Or.inl (by simp))

theorem pyWords_two_of_keyword :
    ∀ (raw w : List Char), w ≠ [] → (∀ c ∈ w, c.isWhitespace = false) →
      (w ++ [' ']).isPrefixOf (pyStrip raw) = true →
      2 ≤ (pyWords (pyStrip raw)).length := by
  intro raw w hw hws hpre
  obtain ⟨t, ht⟩ := prefixOf_exists _ _ hpre
  rw [List.append_assoc, List.singleton_append] at ht
  have hwit : ∃ c ∈ t, c.isWhitespace = false := by
    apply dropTrailingWS_space_split (raw.dropWhile Char.isWhitespace) w t
    rw [← ht]
    rfl
  rw [pyWords, ht, pyWordsAux_word w hws [] t (Or.inr hw)]
  have h2 := pyWordsAux_ne_nil t [] (Or.inr hwit)
  have h3 : 1 ≤ (pyWordsAux [] t).length := List.length_pos.mpr h2
  simp only [List.length_cons]
  omega

theorem pyListGet_ok_of_lt :
    ∀ (l : List (List Char)) (i : Nat), i < l.length → ∃ x, pyListGet l i = .ok x := by
  intro l i h
  cases hg : l.get? i with
  | some a => exact ⟨a, by unfold pyListGet; rw [hg]⟩
  | none =>
    rw [List.get?_eq_none] at hg
    omega

theorem pySplitAux_ne_nil :
    ∀ (l : List Char) (sep : List Char) (skip : Nat) (acc : List Char),
      pySplitAux sep skip acc l ≠ [] := by
  intro l
  induction l with
  | nil => intro sep skip acc; cases skip <;> simp [pySplitAux]
  | cons c cs ih =>
    intro sep skip acc
    cases skip with
    | zero =>
      rw [pySplitAux]
      split
      · simp
      · exact ih sep 0 (c :: acc)
    | succ k =>
      rw [pySplitAux]
      exact ih sep k acc

theorem pySplit_two_of_contains :
    ∀ (sep : List Char), sep ≠ [] →
      ∀ (l acc : List Char), containsSeq sep l = true →
        2 ≤ (pySplitAux sep 0 acc l).length := by
  intro sep hsep l
  induction l with
  | nil =>
    intro acc h
    rw [containsSeq] at h
    cases sep with
    | nil => simp at hsep
    | cons s ss => simp [List.isPrefixOf] at h
  | cons c cs ih =>
    intro acc h
    rw [containsSeq] at h
    by_cases hp : sep.isPrefixOf (c :: cs) = true
    · rw [pySplitAux, if_pos hp]
      have h2 := pySplitAux_ne_nil cs sep (sep.length - 1) []
      have h3 : 1 ≤ (pySplitAux sep (sep.length - 1) [] cs).length :=
        List.length_pos.mpr h2
      exact Nat.succ_le_succ h3
    · rw [pySplitAux, if_neg hp]
      apply ih
      rcases Bool.or_eq_true _ _ |>.mp h with h1 | h1
      · exact absurd h1 hp
      · exact h1

theorem pyIndexChar_ok_of_contains :
    ∀ (l : List Char) (c : Char), containsSeq [c] l = true →
      ∃ i, pyIndexChar c l = .ok i := by
  intro l c
  induction l with
  | nil => intro h; simp [containsSeq, List.isPrefixOf] at h
  | cons x xs ih =>
    intro h
    by_cases hx : x = c
    · exact ⟨0, by simp [pyIndexChar, hx]⟩
    · have h2 : containsSeq [c] xs = true := by
        rw [containsSeq] at h
        rcases Bool.or_eq_true _ _ |>.mp h with h1 | h1
        · simp only [List.isPrefixOf, Bool.and_eq_true, beq_iff_eq] at h1
          exact absurd h1.1.symm hx
        · exact h1
      obtain ⟨i, hi⟩ := ih h2
      exact ⟨i + 1, by simp [pyIndexChar, hx, hi]⟩

theorem classStep_ok :
    ∀ (elements : List UMLElement) (cur : Option UMLElement) (line : List Char),
      ∃ st, classStep elements cur line = .ok st := by
  intro elements cur line
  simp only [classStep]
  by_cases h1 : (strL "class ").isPrefixOf (pyStrip line) = true
  · rw [if_pos h1]
    have h2 : 2 ≤ (pyWords (pyStrip line)).length := by
      apply pyWords_two_of_keyword line (strL "class")
      · decide
      · decide
      · exact h1
    obtain ⟨x, hx⟩ := pyListGet_ok_of_lt (pyWords (pyStrip line)) 1 (by omega)
    rw [hx]
    exact ⟨_, rfl⟩
  · rw [if_neg h1]
    repeat' split
    all_goals exact ⟨_, rfl⟩

theorem parse_class_loop_ok :
    ∀ (lines : List (List Char)) (elements : List UMLElement) (cur : Option UMLElement),
      ∃ es, parse_class_loop lines elements cur = .ok es := by
  intro lines
  induction lines with
  | nil => intro elements cur; exact ⟨_, rfl⟩
  | cons line rest ih =>
    intro elements cur
    obtain ⟨st, hst⟩ := classStep_ok elements cur line
    obtain ⟨es, hes⟩ := ih st.1 st.2
    exact ⟨es, by rw [parse_class_loop, hst]; exact hes⟩

theorem seqStep_spec :
    ∀ (st : SeqState) (line : List Char), ∃ st', seqStep st line = .ok st' ∧
      (st'.elements = st.elements ∨
        ∃ a, st'.elements = st.elements ++
          [{ id := st.elements.length, type := strL "actor", name := a }]) := by
  intro st line
  simp only [seqStep]
  by_cases h1 : (strL "participant ").isPrefixOf (pyStrip line) = true
  · rw [if_pos h1]
    have h2 : 2 ≤ (pyWords (pyStrip line)).length := by
      apply pyWords_two_of_keyword line (strL "participant")
      · decide
      · decide
      · exact h1
    obtain ⟨x, hx⟩ := pyListGet_ok_of_lt (pyWords (pyStrip line)) 1 (by omega)
    rw [hx]
    exact ⟨_, rfl, Or.inr ⟨x, rfl⟩⟩
  · rw [if_neg h1]
    by_cases h2 : containsSeq (strL "->") (pyStrip line) = true
    · rw [if_pos h2]
      split
      · next p0 p1 heq =>
        have hne := pySplitAux_ne_nil (pyStrip p1) (strL ":") 0 []
        obtain ⟨x0, hx0⟩ :=
          pyListGet_ok_of_lt (pySplit (pyStrip p1) (strL ":")) 0
            (List.length_pos.mpr hne)
        simp only [hx0]
        by_cases h3 : containsSeq (strL ":") (pyStrip p1) = true
        · rw [if_pos h3]
          have h4 : 2 ≤ (pySplit (pyStrip p1) (strL ":")).length :=
            pySplit_two_of_contains (strL ":") (by decide) (pyStrip p1) [] h3
          obtain ⟨x1, hx1⟩ :=
            pyListGet_ok_of_lt (pySplit (pyStrip p1) (strL ":")) 1 (by omega)
          rw [hx1]
          exact ⟨_, rfl, Or.inl rfl⟩
        · rw [if_neg h3]
          exact ⟨_, rfl, Or.inl rfl⟩
      · exact ⟨st, rfl, Or.inl rfl⟩
    · rw [if_neg h2]
      exact ⟨st, rfl, Or.inl rfl⟩

theorem seqLoop_spec :
    ∀ (lines : List (List Char)) (st : SeqState), ∃ st', seqLoop lines st = .ok st' ∧
      ∃ newEls, st'.elements = st.elements ++ newEls ∧
        ∀ e ∈ newEls, e.type = strL "actor" := by
  intro lines
  induction lines with
  | nil => intro st; exact ⟨st, rfl, [], by simp, by simp⟩
  | cons line rest ih =>
    intro st
    obtain ⟨st1, hst1, hels⟩ := seqStep_spec st line
    obtain ⟨st', hst', newEls, hels', hact⟩ := ih st1
    refine ⟨st', by rw [seqLoop, hst1]; exact hst', ?_⟩
    rcases hels with h | ⟨a, h⟩
    · exact ⟨newEls, by rw [hels', h], hact⟩
    · refine ⟨{ id := st.elements.length, type := strL "actor", name := a } :: newEls, ?_, ?_⟩
      · rw [hels', h]; simp
      · intro e he
        rcases List.mem_cons.mp he with rfl | hmem
        · rfl
        · exact hact e hmem

theorem appendMessages_spec :
    ∀ (msgs : List (List Char × List Char × List Char)) (elements : List UMLElement),
      ∃ ms, appendMessages elements msgs = elements ++ ms ∧
        ms.map (fun e => (e.name, e.attributes)) =
          msgs.map (fun m => (m.2.2, some [m.1, m.2.1])) ∧
        ∀ e ∈ ms, e.type = strL "message" ∧ ∃ s t, e.attributes = some [s, t] := by
  intro msgs
  induction msgs with
  | nil => intro elements; exact ⟨[], by simp [appendMessages], by simp, by simp⟩
  | cons m rest ih =>
    intro elements
    obtain ⟨s, t, mtext⟩ := m
    obtain ⟨ms, h1, h2, h3⟩ :=
      ih (elements ++
        [{ id := elements.length, type := strL "message", name := mtext
           attributes := some [s, t] }])
    refine ⟨{ id := elements.length, type := strL "message", name := mtext
              attributes := some [s, t] } :: ms, ?_, ?_, ?_⟩
    · rw [appendMessages, h1]; simp
    · simp [h2]
    · intro e he
      rcases List.mem_cons.mp he with rfl | hmem
      · exact ⟨rfl, s, t, rfl⟩
      · exact h3 e hmem

theorem activityStep_ok :
    ∀ (elements : List UMLElement) (line : List Char),
      ∃ es, activityStep elements line = .ok es := by
  intro elements line
  simp only [activityStep]
  split
  · exact ⟨_, rfl⟩
  · split
    · next h2 =>
      have h3 : containsSeq (strL ":") (pyStrip line) = true :=
        (Bool.and_eq_true _ _ |>.mp h2).1
      have h4 : 2 ≤ (pySplit (pyStrip line) (strL ":")).length :=
        pySplit_two_of_contains (strL ":") (by decide) (pyStrip line) [] h3
      obtain ⟨x, hx⟩ := pyListGet_ok_of_lt (pySplit (pyStrip line) (strL ":")) 1 (by omega)
      rw [hx]
      exact ⟨_, rfl⟩
    · repeat' split
      all_goals exact ⟨_, rfl⟩

theorem activityLoop_ok :
    ∀ (lines : List (List Char)) (elements : List UMLElement),
      ∃ es, activityLoop lines elements = .ok es := by
  intro lines
  induction lines with
  | nil => intro elements; exact ⟨_, rfl⟩
  | cons line rest ih =>
    intro elements
    obtain ⟨es1, hes1⟩ := activityStep_ok elements line
    obtain ⟨es, hes⟩ := ih es1
    exact ⟨es, by rw [activityLoop, hes1]; exact hes⟩

theorem componentStep_ok :
    ∀ (elements : List UMLElement) (line : List Char),
      ∃ es, componentStep elements line = .ok es := by
  intro elements line
  simp only [componentStep]
  split
  · next h1 =>
    have h2 : containsSeq (strL "]") (pyStrip line) = true :=
      (Bool.and_eq_true _ _ |>.mp h1).2
    obtain ⟨i, hi⟩ := pyIndexChar_ok_of_contains (pyStrip line) ']' h2
    rw [hi]
    exact ⟨_, rfl⟩
  · split
    · next h1 =>
      have hl : containsSeq (strL "(") (pyStrip line) = true :=
        (Bool.and_eq_true _ _ |>.mp h1).1
      have hr : containsSeq (strL ")") (pyStrip line) = true :=
        (Bool.and_eq_true _ _ |>.mp h1).2
      obtain ⟨i, hi⟩ := pyIndexChar_ok_of_contains (pyStrip line) '(' hl
      obtain ⟨j, hj⟩ := pyIndexChar_ok_of_contains (pyStrip line) ')' hr
      rw [hi, hj]
      exact ⟨_, rfl⟩
    · repeat' split
      all_goals exact ⟨_, rfl⟩

theorem componentLoop_ok :
    ∀ (lines : List (List Char)) (elements : List UMLElement),
      ∃ es, componentLoop lines elements = .ok es := by
  intro lines
  induction lines with
  | nil => intro elements; exact ⟨_, rfl⟩
  | cons line rest ih =>
    intro elements
    obtain ⟨es1, hes1⟩ := componentStep_ok elements line
    obtain ⟨es, hes⟩ := ih es1
    exact ⟨es, by rw [componentLoop, hes1]; exact hes⟩

theorem estimateLoop_sum :
    ∀ (elements : List UMLElement) (total : ℚ) (comp : List (List Char × ℚ))
      (T : ℚ) (C : List (List Char × ℚ)),
      estimateLoop elements total comp = .ok (T, C) →
      ∃ effs : List ℚ, elements.mapM elementEffort = Except.ok effs ∧
        T = total + effs.sum := by
  intro elements
  induction elements with
  | nil =>
    intro total comp T C h
    rw [estimateLoop] at h
    simp only [Except.ok.injEq, Prod.mk.injEq] at h
    exact ⟨[], by rfl, by simp [h.1]⟩
  | cons e rest ih =>
    intro total comp T C h
    rw [estimateLoop] at h
    cases he : elementEffort e with
    | error err => rw [he] at h; simp at h
    | ok eff =>
      rw [he] at h
      obtain ⟨effs, hm, hsum⟩ :=
        ih (total + eff) (dictInsert comp e.name (round2 eff)) T C h
      refine ⟨eff :: effs, ?_, ?_⟩
      · rw [List.mapM_cons, he, hm]; rfl
      · rw [hsum, List.sum_cons]; ring

theorem abs_round2_sub_le (x : ℚ) : |round2 x - x| ≤ 1 / 100 := by
  unfold round2
  have h := abs_sub_round (x * 100)
  have h2 : ((round (x * 100) : ℤ) : ℚ) / 100 - x =
      (((round (x * 100) : ℤ) : ℚ) - x * 100) / 100 := by ring
  rw [h2, abs_div]
  have h3 : |(100 : ℚ)| = 100 := by norm_num
  rw [h3]
  have h4 : |((round (x * 100) : ℤ) : ℚ) - x * 100| = |x * 100 - ((round (x * 100) : ℤ) : ℚ)| :=
    abs_sub_comm _ _
  rw [h4]
  linarith

/-- C3: for every input line the relationship classifier returns exactly one
kind, chosen by first-match priority `-->` → association, `--*` → composition,
`--o` → aggregation, `<|--` → inheritance, otherwise unknown; in particular a
line containing both `-->` and `<|--` is classified association. -/
theorem claim_C3_classifier :
    ∀ (line : List Char),
      (containsSeq (strL "-->") line = true →
        determine_relationship_type line = strL "association") ∧
      (containsSeq (strL "-->") line = false →
        containsSeq (strL "--*") line = true →
        determine_relationship_type line = strL "composition") ∧
      (containsSeq (strL "-->") line = false →
        containsSeq (strL "--*") line = false →
        containsSeq (strL "--o") line = true →
        determine_relationship_type line = strL "aggregation") ∧
      (containsSeq (strL "-->") line = false →
        containsSeq (strL "--*") line = false →
        containsSeq (strL "--o") line = false →
        containsSeq (strL "<|--") line = true →
        determine_relationship_type line = strL "inheritance") ∧
      (containsSeq (strL "-->") line = false →
        containsSeq (strL "--*") line = false →
        containsSeq (strL "--o") line = false →
        containsSeq (strL "<|--") line = false →
        determine_relationship_type line = strL "unknown") ∧
      (containsSeq (strL "-->") line = true →
        containsSeq (strL "<|--") line = true →
        determine_relationship_type line = strL "association") := by
  intro line
  refine ⟨?_, ?_, ?_, ?_, ?_, ?_⟩
  · intro h1; simp [determine_relationship_type, h1]
  · intro h1 h2; simp [determine_relationship_type, h1, h2]
  · intro h1 h2 h3; simp [determine_relationship_type, h1, h2, h3]
  · intro h1 h2 h3 h4; simp [determine_relationship_type, h1, h2, h3, h4]
  · intro h1 h2 h3 h4; simp [determine_relationship_type, h1, h2, h3, h4]
  · intro h1 _; simp [determine_relationship_type, h1]

/-- C3 witness: a line containing both `-->` and `<|--` is classified
association. -/
theorem claim_C3_witness :
    determine_relationship_type (strL "Base <|-- Derived --> Other") =
      strL "association" :=
  (claim_C3_classifier _).2.2.2.2.2 (by decide) (by decide)

/-- C4: base effort is 40 for a class with more than 10 methods or more than
5 relationships, 24 for a class with more than 5 methods or more than 3
relationships (when not complex), 16 for every other class, and exactly 8 for
every element of any non-class category. -/
theorem claim_C4_base_effort :
    ∀ (element : UMLElement),
      (∀ ms rs, element.type = strL "class" → element.methods = some ms →
        element.relationships = some rs →
        calculate_base_effort element = Except.ok
          (if 10 < ms.length ∨ 5 < rs.length then 40
           else if 5 < ms.length ∨ 3 < rs.length then 24 else 16)) ∧
      (element.type ≠ strL "class" → calculate_base_effort element = Except.ok 8) := by
  intro element
  constructor
  · intro ms rs hty hm hr
    simp only [calculate_base_effort, hty, hm, hr, if_pos rfl]
    by_cases h1 : 10 < ms.length <;> by_cases h2 : 5 < rs.length <;>
      by_cases h3 : 5 < ms.length <;> by_cases h4 : 3 < rs.length <;>
      simp [h1, h2, h3, h4]
  · intro hty
    rw [calculate_base_effort, if_neg hty]

/-- C4 witness: a class with no methods and no relationships gets the simple
tier of 16 hours. -/
theorem claim_C4_witness :
    calculate_base_effort
        { id := 0, type := strL "class", name := strL "A", attributes := some []
          methods := some [], relationships := some [] } = Except.ok 16 := by
  have h := (claim_C4_base_effort
    { id := 0, type := strL "class", name := strL "A", attributes := some []
      methods := some [], relationships := some [] }).1 [] [] rfl rfl rfl
  simpa using h

/-- C5: for a class element the complexity multiplier is the product
`(1 + i*0.2) * (1 + r*0.1) * (1 + m*0.15)` of the inheritance-count,
relationship-count and method-count factors; every non-class element keeps
multiplier 1. -/
theorem claim_C5_complexity :
    ∀ (element : UMLElement),
      (element.type = strL "class" →
        calculate_complexity element =
          (1 + (countInheritance (element.relationships.getD []) : ℚ) * (1 / 5)) *
            (1 + ((element.relationships.getD []).length : ℚ) * (1 / 10)) *
            (1 + ((element.methods.getD []).length : ℚ) * (3 / 20))) ∧
      (element.type ≠ strL "class" → calculate_complexity element = 1) := by
  intro element
  constructor
  · intro hty
    rcases hrel : element.relationships with _ | ⟨_ | ⟨r, rs⟩⟩ <;>
      rcases hm : element.methods with _ | ⟨_ | ⟨m, ms⟩⟩ <;>
      simp [calculate_complexity, hty, hrel, hm, countInheritance] <;>
      first
        | ring1
        | exact Or.inl (by norm_num)
  · intro hty
    rw [calculate_complexity, if_neg hty]

/-- C5 witness: a class with one inheritance relationship and one method has
multiplier 1.2 * 1.1 * 1.15 = 1.518. -/
theorem claim_C5_witness :
    calculate_complexity
        { id := 0, type := strL "class", name := strL "X"
          attributes := some [], methods := some [strL "+getX()"]
          relationships := some
            [{ source := strL "X", target := strL "Y", type := strL "inheritance" }] } =
      759 / 500 := by
  have h := (claim_C5_complexity
    { id := 0, type := strL "class", name := strL "X"
      attributes := some [], methods := some [strL "+getX()"]
      relationships := some
        [{ source := strL "X", target := strL "Y", type := strL "inheritance" }] }).1 rfl
  have hc : countInheritance
      [{ source := strL "X", target := strL "Y", type := strL "inheritance"
         multiplicity := none }] = 1 := rfl
  rw [h]
  simp [hc]
  norm_num

/-- C6: whenever estimation succeeds, the reported `total_effort_hours` is
`round2(1.3 × S)` where `S` is the sum of the unrounded per-element efforts,
and hence lies within 0.01 of `1.3 × S`. -/
theorem claim_C6_buffer_law :
    ∀ (elements : List UMLElement) (est : Estimation),
      estimate_effort elements = Except.ok est →
      ∃ effs : List ℚ, elements.mapM elementEffort = Except.ok effs ∧
        est.total_effort_hours = round2 (effs.sum * (13 / 10)) ∧
        |est.total_effort_hours - 13 / 10 * effs.sum| ≤ 1 / 100 := by
  intro elements est h
  rw [estimate_effort] at h
  cases hl : estimateLoop elements 0 [] with
  | error e => rw [hl] at h; simp at h
  | ok tc =>
    obtain ⟨T, C⟩ := tc
    rw [hl] at h
    simp only [Except.ok.injEq] at h
    obtain ⟨effs, hm, hsum⟩ := estimateLoop_sum elements 0 [] T C hl
    have hT : T = effs.sum := by rw [hsum]; ring
    subst h
    refine ⟨effs, hm, ?_, ?_⟩
    · show round2 (T * (13 / 10)) = round2 (effs.sum * (13 / 10))
      rw [hT]
    · show |round2 (T * (13 / 10)) - 13 / 10 * effs.sum| ≤ 1 / 100
      rw [hT]
      have h5 : (13 / 10 : ℚ) * effs.sum = effs.sum * (13 / 10) := mul_comm _ _
      rw [h5]
      exact abs_round2_sub_le _
/-- C6 witness: on the empty element sequence the reported total is the
rounded buffered sum of the empty effort list. -/
theorem claim_C6_witness :
    ∃ effs : List ℚ,
      ([] : List UMLElement).mapM elementEffort = Except.ok effs ∧
      ({ total_effort_hours := round2 (0 * (13 / 10)), component_efforts := []
         high_complexity_elements := [] } : Estimation).total_effort_hours =
        round2 (effs.sum * (13 / 10)) ∧
      |({ total_effort_hours := round2 (0 * (13 / 10)), component_efforts := []
          high_complexity_elements := [] } : Estimation).total_effort_hours -
          13 / 10 * effs.sum| ≤ 1 / 100 :=
  claim_C6_buffer_law []
    { total_effort_hours := round2 (0 * (13 / 10)), component_efforts := []
      high_complexity_elements := [] } rfl

/-- C7: `parse_uml` fails exactly on dialect tags outside
class/sequence/activity/component, with a `ValueError` carrying the offending
tag; on every supported tag it returns an element sequence for any input. -/
theorem claim_C7_dispatch :
    ∀ (content diagram_type : List Char),
      (diagram_type ∉ supported_types →
        parse_uml content diagram_type =
          Except.error (strL "Unsupported UML diagram type: " ++ diagram_type)) ∧
      (diagram_type ∈ supported_types →
        ∃ elements, parse_uml content diagram_type = Except.ok elements) := by
  intro content d
  constructor
  · intro hns
    simp only [supported_types, List.mem_cons, List.not_mem_nil, or_false,
      not_or] at hns
    obtain ⟨h1, h2, h3, h4⟩ := hns
    rw [parse_uml, if_neg h1, if_neg h2, if_neg h3, if_neg h4]
  · intro hs
    simp only [supported_types, List.mem_cons, List.not_mem_nil, or_false] at hs
    rcases hs with rfl | rfl | rfl | rfl
    · obtain ⟨es, hes⟩ := parse_class_loop_ok (pySplit content (strL "\n")) [] none
      exact ⟨es, by rw [parse_uml, if_pos rfl, parse_class_diagram]; exact hes⟩
    · obtain ⟨st, hst, _⟩ := seqLoop_spec (pySplit content (strL "\n")) ⟨[], [], []⟩
      refine ⟨appendMessages st.elements st.messages, ?_⟩
      rw [parse_uml, if_neg (by decide), if_pos rfl, parse_sequence_diagram, hst]
    · obtain ⟨es, hes⟩ := activityLoop_ok (pySplit content (strL "\n")) []
      exact ⟨es, by
        rw [parse_uml, if_neg (by decide), if_neg (by decide), if_pos rfl,
          parse_activity_diagram]
        exact hes⟩
    · obtain ⟨es, hes⟩ := componentLoop_ok (pySplit content (strL "\n")) []
      exact ⟨es, by
        rw [parse_uml, if_neg (by decide), if_neg (by decide), if_neg (by decide),
          if_pos rfl, parse_component_diagram]
        exact hes⟩

/-- C7 witness: the tag `json` is rejected with the offending tag in the
message, and the tag `class` parses a sample text. -/
theorem claim_C7_witness :
    parse_uml (strL "class A") (strL "json") =
      Except.error (strL "Unsupported UML diagram type: json") ∧
    ∃ elements, parse_uml (strL "class A") (strL "class") = Except.ok elements := by
  constructor
  · have h := (claim_C7_dispatch (strL "class A") (strL "json")).1 (by decide)
    rw [show strL "Unsupported UML diagram type: " ++ strL "json" =
      strL "Unsupported UML diagram type: json" from by decide] at h
    exact h
  · exact (claim_C7_dispatch (strL "class A") (strL "class")).2 (by decide)

/-- C8: every error anywhere in parsing or estimation is converted by
`analyze_uml_document` into the record `failure (message) "failed"`; on
success it returns the structured report built by `buildReport`. -/
theorem claim_C8_failure_boundary :
    ∀ (content diagram_type : List Char),
      (∀ e, parse_uml content diagram_type = Except.error e →
        analyze_uml_document content diagram_type =
          .failure (strL "Error processing UML diagram: " ++ e) (strL "failed")) ∧
      (∀ elements e, parse_uml content diagram_type = Except.ok elements →
        estimate_effort elements = Except.error e →
        analyze_uml_document content diagram_type =
          .failure (strL "Error processing UML diagram: " ++ e) (strL "failed")) ∧
      (∀ elements estimation, parse_uml content diagram_type = Except.ok elements →
        estimate_effort elements = Except.ok estimation →
        analyze_uml_document content diagram_type =
          .success (buildReport elements estimation)) := by
  intro content d
  refine ⟨?_, ?_, ?_⟩
  · intro e he
    rw [analyze_uml_document, he]
  · intro elements e hp hest
    simp only [analyze_uml_document, hp, hest]
  · intro elements estimation hp hest
    simp only [analyze_uml_document, hp, hest]

/-- C8 witness: an unsupported tag produces the error record with status
`failed`; the empty class diagram produces the success report. -/
theorem claim_C8_witness :
    analyze_uml_document (strL "class A") (strL "json") =
      .failure (strL "Error processing UML diagram: Unsupported UML diagram type: json")
        (strL "failed") ∧
    analyze_uml_document (strL "") (strL "class") =
      .success (buildReport []
        { total_effort_hours := round2 (0 * (13 / 10)), component_efforts := []
          high_complexity_elements := [] }) := by
  constructor
  · have h := (claim_C8_failure_boundary (strL "class A") (strL "json")).1
      (strL "Unsupported UML diagram type: json") (by decide)
    rw [show strL "Error processing UML diagram: " ++
        strL "Unsupported UML diagram type: json" =
        strL "Error processing UML diagram: Unsupported UML diagram type: json"
      from by decide] at h
    exact h
  · exact (claim_C8_failure_boundary (strL "") (strL "class")).2.2 []
      { total_effort_hours := round2 (0 * (13 / 10)), component_efforts := []
        high_complexity_elements := [] } rfl rfl

/-- C10: in the component dialect the branches are tested in the order
component, interface, dependency: a trimmed line starting with `[` and
containing `]` always yields a component named by the text between the
leading `[` and the first `]` (even when the line contains `-->`), and a
dependency element can only be produced when neither the component pattern
nor the interface pattern matched. -/
theorem claim_C10_component_precedence :
    ∀ (elements : List UMLElement) (rawLine : List Char),
      ((strL "[").isPrefixOf (pyStrip rawLine) = true →
        containsSeq (strL "]") (pyStrip rawLine) = true →
        ∃ i, pyIndexChar ']' (pyStrip rawLine) = Except.ok i ∧
          componentStep elements rawLine = Except.ok (elements ++
            [{ id := elements.length, type := strL "component"
               name := ((pyStrip rawLine).drop 1).take (i - 1) }])) ∧
      (∀ es e, componentStep elements rawLine = Except.ok es →
        es = elements ++ [e] → e.type = strL "dependency" →
        ¬((strL "[").isPrefixOf (pyStrip rawLine) = true ∧
            containsSeq (strL "]") (pyStrip rawLine) = true) ∧
        ¬(containsSeq (strL "(") (pyStrip rawLine) = true ∧
            containsSeq (strL ")") (pyStrip rawLine) = true)) := by
  intro elements rawLine
  constructor
  · intro h1 h2
    obtain ⟨i, hi⟩ := pyIndexChar_ok_of_contains (pyStrip rawLine) ']' h2
    refine ⟨i, hi, ?_⟩
    simp only [componentStep]
    rw [if_pos ((Bool.and_eq_true _ _).mpr ⟨h1, h2⟩)]
    simp only [hi]
  · intro es e hok heq hty
    simp only [componentStep] at hok
    by_cases hc : ((strL "[").isPrefixOf (pyStrip rawLine) &&
        containsSeq (strL "]") (pyStrip rawLine)) = true
    · rw [if_pos hc] at hok
      cases hidx : pyIndexChar ']' (pyStrip rawLine) with
      | error err => rw [hidx] at hok; simp at hok
      | ok i =>
        rw [hidx] at hok
        simp only [Except.ok.injEq] at hok
        rw [← hok] at heq
        have he : e.type = strL "component" := by
          have h5 := List.append_cancel_left heq
          simp only [List.cons.injEq, and_true] at h5
          rw [← h5]
        rw [he] at hty
        exact absurd hty (by decide)
    · rw [if_neg hc] at hok
      by_cases hc2 : (containsSeq (strL "(") (pyStrip rawLine) &&
          containsSeq (strL ")") (pyStrip rawLine)) = true
      · rw [if_pos hc2] at hok
        cases hi1 : pyIndexChar '(' (pyStrip rawLine) with
        | error err => rw [hi1] at hok; simp at hok
        | ok i =>
          rw [hi1] at hok
          cases hi2 : pyIndexChar ')' (pyStrip rawLine) with
          | error err => rw [hi2] at hok; simp at hok
          | ok j =>
            rw [hi2] at hok
            simp only [Except.ok.injEq] at hok
            rw [← hok] at heq
            have he : e.type = strL "interface" := by
              have h5 := List.append_cancel_left heq
              simp only [List.cons.injEq, and_true] at h5
              rw [← h5]
            rw [he] at hty
            exact absurd hty (by decide)
      · constructor
        · intro hand
          exact hc ((Bool.and_eq_true _ _).mpr hand)
        · intro hand
          exact hc2 ((Bool.and_eq_true _ _).mpr hand)

/-- C10 witness: the third line of the component example, which contains
`-->`, is still turned into a component named by the bracketed text. -/
theorem claim_C10_witness :
    ∃ i, pyIndexChar ']' (pyStrip (strL "[Service A] --> (Interface X)")) =
        Except.ok i ∧
      componentStep [] (strL "[Service A] --> (Interface X)") = Except.ok
        [{ id := 0, type := strL "component"
           name := ((pyStrip (strL "[Service A] --> (Interface X)")).drop 1).take
             (i - 1) }] :=
  (claim_C10_component_precedence [] (strL "[Service A] --> (Interface X)")).1
    (by decide) (by decide)

/-- C9: sequence-dialect output always lists all actor elements before all
message elements; message elements carry `attributes = [source, target]` and
are emitted in the order their lines were buffered (name = message text). -/
theorem claim_C9_sequence_ordering :
    ∀ (content : List Char),
      ∃ as ms,
        parse_sequence_diagram content = Except.ok (as ++ ms) ∧
        (∀ e ∈ as, e.type = strL "actor") ∧
        (∀ e ∈ ms, e.type = strL "message" ∧ ∃ s t, e.attributes = some [s, t]) ∧
        (∀ st, seqLoop (pySplit content (strL "\n")) ⟨[], [], []⟩ = Except.ok st →
          ms.map (fun e => (e.name, e.attributes)) =
            st.messages.map (fun m => (m.2.2, some [m.1, m.2.1]))) := by
  intro content
  obtain ⟨st, hloop, newEls, hels, hact⟩ :=
    seqLoop_spec (pySplit content (strL "\n")) ⟨[], [], []⟩
  obtain ⟨ms, happ, hmap, hmsg⟩ := appendMessages_spec st.messages st.elements
  refine ⟨st.elements, ms, ?_, ?_, hmsg, ?_⟩
  · simp only [parse_sequence_diagram, hloop]
    rw [happ]
  · intro e he
    rw [hels] at he
    simp only [List.nil_append] at he
    exact hact e he
  · intro st' h'
    rw [hloop] at h'
    obtain rfl := Except.ok.inj h'
    exact hmap

/-- C9 witness: the spec's sequence example, with the two participant lines
and one message line. -/
theorem claim_C9_witness :
    ∃ as ms,
      parse_sequence_diagram
          (strL "participant User\nparticipant System\nUser->System: login") =
        Except.ok (as ++ ms) ∧
      (∀ e ∈ as, e.type = strL "actor") ∧
      (∀ e ∈ ms, e.type = strL "message" ∧ ∃ s t, e.attributes = some [s, t]) ∧
      (∀ st, seqLoop (pySplit
            (strL "participant User\nparticipant System\nUser->System: login")
            (strL "\n")) ⟨[], [], []⟩ = Except.ok st →
        ms.map (fun e => (e.name, e.attributes)) =
          st.messages.map (fun m => (m.2.2, some [m.1, m.2.1]))) :=
  claim_C9_sequence_ordering
    (strL "participant User\nparticipant System\nUser->System: login")

/-- C1 counterexample: on the spec's class example the first parsed element
(class `A`) has zero methods, not one — the `+getX(): int` line starts with
`+` and contains `:`, so the attribute branch captures it first. -/
theorem claim_C1_counterexample :
    ¬ ∃ (es : List UMLElement) (a : UMLElement) (ms : List (List Char)),
        parse_uml (strL "class A \x7b\n-x: int\n+getX(): int\n\x7d\nclass B\nA --> B")
            (strL "class") = Except.ok es ∧
        es.get? 0 = some a ∧ a.methods = some ms ∧ ms.length = 1 := by
  rintro ⟨es, a, ms, hok, hget, hms, hlen⟩
  have hL : parse_uml (strL "class A \x7b\n-x: int\n+getX(): int\n\x7d\nclass B\nA --> B")
      (strL "class") = Except.ok
        [{ id := 0, type := strL "class", name := strL "A"
           attributes := some [strL "-x: int", strL "+getX(): int"]
           methods := some [], relationships := some [] },
         { id := 1, type := strL "class", name := strL "B"
           attributes := some [], methods := some []
           relationships := some [{ source := strL "A", target := strL "> B"
                                    type := strL "association" }] }] := rfl
  rw [hL] at hok
  obtain rfl := (Except.ok.inj hok).symm
  have h2 : some ({ id := 0, type := strL "class", name := strL "A"
                    attributes := some [strL "-x: int", strL "+getX(): int"]
                    methods := some [], relationships := some [] } : UMLElement) =
      some a := hget
  obtain rfl := (Option.some.inj h2).symm
  have h3 : (some ([] : List (List Char))) = some ms := hms
  obtain rfl := (Option.some.inj h3).symm
  exact absurd hlen (by simp)

/-- C1 amended: parsing the class example yields the two class elements `A`,
`B` in order, but `A` carries two attributes (`-x: int` and `+getX(): int`),
no methods and no relationships; the `A --> B` line attaches an association
relationship with source `A` and target `"> B"` to the then-current class `B`
(the regex split leaves the `>` on the target).  The base effort of `A` is
still 16 (simple tier). -/
theorem claim_C1_amended :
    parse_uml (strL "class A \x7b\n-x: int\n+getX(): int\n\x7d\nclass B\nA --> B")
        (strL "class") = Except.ok
      [{ id := 0, type := strL "class", name := strL "A"
         attributes := some [strL "-x: int", strL "+getX(): int"]
         methods := some [], relationships := some [] },
       { id := 1, type := strL "class", name := strL "B"
         attributes := some [], methods := some []
         relationships := some [{ source := strL "A", target := strL "> B"
                                  type := strL "association" }] }] ∧
    calculate_base_effort
        { id := 0, type := strL "class", name := strL "A"
          attributes := some [strL "-x: int", strL "+getX(): int"]
          methods := some [], relationships := some [] } = Except.ok 16 :=
  ⟨rfl, rfl⟩

/-- C2 counterexample: the third element parsed from the component example is
not a dependency — the line `[Service A] --> (Interface X)` starts with `[`
and contains `]`, so the component branch wins. -/
theorem claim_C2_counterexample :
    ¬ ∃ (es : List UMLElement) (e : UMLElement),
        parse_uml (strL "[Service A]\n(Interface X)\n[Service A] --> (Interface X)")
            (strL "component") = Except.ok es ∧
        es.get? 2 = some e ∧ e.type = strL "dependency" := by
  rintro ⟨es, e, hok, hget, hty⟩
  have hL : parse_uml (strL "[Service A]\n(Interface X)\n[Service A] --> (Interface X)")
      (strL "component") = Except.ok
        [{ id := 0, type := strL "component", name := strL "Service A" },
         { id := 1, type := strL "interface", name := strL "Interface X" },
         { id := 2, type := strL "component", name := strL "Service A" }] := rfl
  rw [hL] at hok
  obtain rfl := (Except.ok.inj hok).symm
  have h2 : some ({ id := 2, type := strL "component", name := strL "Service A" }
      : UMLElement) = some e := hget
  obtain rfl := (Option.some.inj h2).symm
  exact absurd hty (by decide)

/-- C2 amended: parsing the component example yields three elements in order:
a component `Service A`, an interface `Interface X`, and a second component
`Service A` — the third line matches the component branch first, which names
the element by the text between the leading `[` and the first `]`. -/
theorem claim_C2_amended :
    parse_uml (strL "[Service A]\n(Interface X)\n[Service A] --> (Interface X)")
        (strL "component") = Except.ok
      [{ id := 0, type := strL "component", name := strL "Service A" },
       { id := 1, type := strL "interface", name := strL "Interface X" },
       { id := 2, type := strL "component", name := strL "Service A" }] :=
  rfl
